import Mathlib

/-!
Verification development for the model-drawing and shadow-rendering core of
this repository (`src/unnamed/part_000` — model drawing, and
`src/3d-style/render/shadow_renderer.js`).

Numbers are modelled by `ℚ` (for the purely arithmetic/data-flow code) and by
`ℝ` (for the trigonometric shadow math).  Matrices follow the gl-matrix
conventions used by the source: a 4×4 matrix is a flat, column-major array of
16 entries, and `vec3.transformMat4` performs the perspective divide with the
`w = w || 1.0` guard, exactly as in gl-matrix.
-/

namespace MapboxGL

/-- A 3-component vector, as used for mesh centroids and positions. -/
structure Vec3 where
  x : ℚ
  y : ℚ
  z : ℚ
deriving DecidableEq, Repr

/-- A 4×4 matrix in gl-matrix column-major layout: entry `e(4*col + row)`. -/
structure Mat4 where
  e0 : ℚ
  e1 : ℚ
  e2 : ℚ
  e3 : ℚ
  e4 : ℚ
  e5 : ℚ
  e6 : ℚ
  e7 : ℚ
  e8 : ℚ
  e9 : ℚ
  e10 : ℚ
  e11 : ℚ
  e12 : ℚ
  e13 : ℚ
  e14 : ℚ
  e15 : ℚ
deriving DecidableEq, Repr

/-- The gl-matrix identity matrix (`mat4.identity`). -/
def mat4identity : Mat4 :=
  ⟨1, 0, 0, 0, 0, 1, 0, 0, 0, 0, 1, 0, 0, 0, 0, 1⟩

/-- gl-matrix `mat4.multiply(out, a, b)`: column `j` of the result is `a`
applied to column `j` of `b`. -/
def mat4multiply (a b : Mat4) : Mat4 where
  e0 := b.e0 * a.e0 + b.e1 * a.e4 + b.e2 * a.e8 + b.e3 * a.e12
  e1 := b.e0 * a.e1 + b.e1 * a.e5 + b.e2 * a.e9 + b.e3 * a.e13
  e2 := b.e0 * a.e2 + b.e1 * a.e6 + b.e2 * a.e10 + b.e3 * a.e14
  e3 := b.e0 * a.e3 + b.e1 * a.e7 + b.e2 * a.e11 + b.e3 * a.e15
  e4 := b.e4 * a.e0 + b.e5 * a.e4 + b.e6 * a.e8 + b.e7 * a.e12
  e5 := b.e4 * a.e1 + b.e5 * a.e5 + b.e6 * a.e9 + b.e7 * a.e13
  e6 := b.e4 * a.e2 + b.e5 * a.e6 + b.e6 * a.e10 + b.e7 * a.e14
  e7 := b.e4 * a.e3 + b.e5 * a.e7 + b.e6 * a.e11 + b.e7 * a.e15
  e8 := b.e8 * a.e0 + b.e9 * a.e4 + b.e10 * a.e8 + b.e11 * a.e12
  e9 := b.e8 * a.e1 + b.e9 * a.e5 + b.e10 * a.e9 + b.e11 * a.e13
  e10 := b.e8 * a.e2 + b.e9 * a.e6 + b.e10 * a.e10 + b.e11 * a.e14
  e11 := b.e8 * a.e3 + b.e9 * a.e7 + b.e10 * a.e11 + b.e11 * a.e15
  e12 := b.e12 * a.e0 + b.e13 * a.e4 + b.e14 * a.e8 + b.e15 * a.e12
  e13 := b.e12 * a.e1 + b.e13 * a.e5 + b.e14 * a.e9 + b.e15 * a.e13
  e14 := b.e12 * a.e2 + b.e13 * a.e6 + b.e14 * a.e10 + b.e15 * a.e14
  e15 := b.e12 * a.e3 + b.e13 * a.e7 + b.e14 * a.e11 + b.e15 * a.e15

/-- gl-matrix `vec3.transformMat4(out, v, m)`: applies the matrix including
the perspective divide, with the `w = w || 1.0` guard against `w = 0`. -/
def transformMat4 (v : Vec3) (m : Mat4) : Vec3 :=
  let w0 := m.e3 * v.x + m.e7 * v.y + m.e11 * v.z + m.e15
  let w := if w0 = 0 then 1 else w0
  { x := (m.e0 * v.x + m.e4 * v.y + m.e8 * v.z + m.e12) / w
    y := (m.e1 * v.x + m.e5 * v.y + m.e9 * v.z + m.e13) / w
    z := (m.e2 * v.x + m.e6 * v.y + m.e10 * v.z + m.e14) / w }

/-- Material of a mesh; only the fields the draw-order logic reads.
`alphaMode` is one of the glTF strings `"OPAQUE"`, `"MASK"`, `"BLEND"`. -/
structure Material where
  alphaMode : String
deriving DecidableEq, Repr

/-- A mesh: geometry reference plus material and local-space centroid
(the fields `prepareMeshes` reads). -/
structure Mesh where
  material : Material
  centroid : Vec3
deriving DecidableEq, Repr

/-- A node of the model scene graph: a local matrix, meshes, children. -/
inductive Node where
  | mk (matrix : Mat4) (meshes : List Mesh) (children : List Node)

/-- The local matrix of a node. -/
def Node.matrix : Node → Mat4
  | .mk m _ _ => m

/-- The meshes attached directly to a node. -/
def Node.meshes : Node → List Mesh
  | .mk _ ms _ => ms

/-- The children of a node. -/
def Node.children : Node → List Node
  | .mk _ _ cs => cs

/-- The per-frame draw record produced by `prepareMeshes`
(type `SortedMesh` in the source). -/
structure SortedMesh where
  mesh : Mesh
  depth : ℚ
  modelIndex : ℕ
  worldViewProjection : Mat4
  nodeModelMatrix : Mat4
deriving DecidableEq, Repr

/-- The slice of the map `Transform` that the model-drawing code reads: the
projection name, the (external) globe conversion `convertModelMatrixForGlobe`
from `src/3d-style/util/model_util.js`, and the projection matrix. -/
structure Transform where
  projectionName : String
  convertModelMatrixForGlobe : Mat4 → Mat4
  projMatrix : Mat4

/-- The classification loop in the body of `prepareMeshes`
(`src/unnamed/part_000`, lines 210–225): a non-`BLEND` mesh is recorded as
opaque with `depth = 0`; a `BLEND` mesh has its centroid transformed by the
world-view-projection matrix and is recorded as transparent with that depth
exactly when the transformed `z` is `> 0`.  Returns
(transparent records, opaque records) in traversal order. -/
def classifyMeshes (meshes : List Mesh) (wvp nodeModelMatrix : Mat4)
    (modelIndex : ℕ) : List SortedMesh × List SortedMesh :=
  match meshes with
  | [] => ([], [])
  | mesh :: rest =>
    let r := classifyMeshes rest wvp nodeModelMatrix modelIndex
    if mesh.material.alphaMode ≠ "BLEND" then
      (r.1, ⟨mesh, 0, modelIndex, wvp, nodeModelMatrix⟩ :: r.2)
    else
      let centroidPos := transformMat4 mesh.centroid wvp
      if centroidPos.z > 0 then
        (⟨mesh, centroidPos.z, modelIndex, wvp, nodeModelMatrix⟩ :: r.1, r.2)
      else
        (r.1, r.2)

mutual

/-- `prepareMeshes` (`src/unnamed/part_000`, lines 200–231): computes the
node's world matrix (globe-converting the model matrix when the projection is
`"globe"`, then right-multiplying the node's own local matrix), classifies the
node's meshes, then recurses into the children passing the ORIGINAL
`modelMatrix`.  Returns (transparent, opaque) record lists in push order. -/
def prepareMeshes (tr : Transform) (node : Node) (modelMatrix projectionMatrix : Mat4)
    (modelIndex : ℕ) : List SortedMesh × List SortedMesh :=
  match node with
  | .mk nodeMatrix nodeMeshes nodeChildren =>
    let base := if tr.projectionName = "globe" then
        tr.convertModelMatrixForGlobe modelMatrix
      else
        modelMatrix
    let nodeModelMatrix := mat4multiply base nodeMatrix
    let worldViewProjection := mat4multiply projectionMatrix nodeModelMatrix
    let own := classifyMeshes nodeMeshes worldViewProjection nodeModelMatrix modelIndex
    let rest := prepareMeshesChildren tr nodeChildren modelMatrix projectionMatrix modelIndex
    (own.1 ++ rest.1, own.2 ++ rest.2)

/-- The `for (const child of node.children)` loop of `prepareMeshes`: the
children are visited in order, each with the same unmodified `modelMatrix`. -/
def prepareMeshesChildren (tr : Transform) (nodes : List Node)
    (modelMatrix projectionMatrix : Mat4) (modelIndex : ℕ) :
    List SortedMesh × List SortedMesh :=
  match nodes with
  | [] => ([], [])
  | c :: cs =>
    let p := prepareMeshes tr c modelMatrix projectionMatrix modelIndex
    let q := prepareMeshesChildren tr cs modelMatrix projectionMatrix modelIndex
    (p.1 ++ q.1, p.2 ++ q.2)

end

/-- The stencil modes `drawModels` passes to `drawMesh`: `StencilMode.disabled`
or `painter.stencilModeFor3D()`. -/
inductive StencilModeUsed where
  | disabled
  | stencilModeFor3D
deriving DecidableEq, Repr

/-- The color modes `drawModels` passes to `drawMesh`: `ColorMode.disabled`
or `painter.colorModeForRenderPass()`. -/
inductive ColorModeUsed where
  | disabled
  | colorModeForRenderPass
deriving DecidableEq, Repr

/-- One `drawMesh(sortedMesh, painter, layer, params, stencilMode, colorMode)`
invocation issued by `drawModels`, in issue order. -/
structure DrawCall where
  record : SortedMesh
  stencil : StencilModeUsed
  color : ColorModeUsed
deriving DecidableEq, Repr

/-- The model-gathering loop of `drawModels` (`src/unnamed/part_000`,
lines 256–277): each model contributes its externally computed model matrix
(`model.computeModelMatrix`) and its root node list; `prepareMeshes` is run for
every root node with the running `modelIndex`, pushing into the shared
transparent/opaque arrays. -/
def gatherMeshes (tr : Transform) (modelIndex : ℕ)
    (models : List (Mat4 × List Node)) : List SortedMesh × List SortedMesh :=
  match models with
  | [] => ([], [])
  | (modelMatrix, nodes) :: rest =>
    let p := prepareMeshesChildren tr nodes modelMatrix tr.projMatrix modelIndex
    let q := gatherMeshes tr (modelIndex + 1) rest
    (p.1 ++ q.1, p.2 ++ q.2)

/-- The transparent-mesh sort of `drawModels`
(`transparentMeshes.sort((a, b) => b.depth - a.depth)`, lines 279–281):
JavaScript `Array.prototype.sort` is stable (ECMAScript 2019), and the
comparator orders by descending depth, so it is a stable merge sort with
`a` before `b` whenever `b.depth ≤ a.depth`. -/
def sortByDepthDescending (l : List SortedMesh) : List SortedMesh :=
  l.mergeSort (fun a b => decide (b.depth ≤ a.depth))

/-- `drawModels` (`src/unnamed/part_000`, lines 233–303), modelled as the
ordered sequence of `drawMesh` invocations it issues.  Early returns: wrong
render pass, `model-opacity === 0`, source not loaded; a `vector`/`geojson`
source is dispatched to `drawInstancedModels` and issues no `drawMesh` call.
Otherwise: gather records, sort the transparent ones by descending depth, draw
opaque meshes (one pass when opacity is 1, a color-disabled pass followed by a
stencil-masked pass otherwise), then draw the sorted transparent meshes. -/
def drawModels (renderPass : String) (opacity : ℚ) (sourceLoaded : Bool)
    (sourceType : String) (tr : Transform) (models : List (Mat4 × List Node)) :
    List DrawCall :=
  if renderPass ≠ "translucent" then [] else
  if opacity = 0 then [] else
  if ¬ sourceLoaded then [] else
  if sourceType = "vector" ∨ sourceType = "geojson" then [] else
  (if opacity = 1 then
    (gatherMeshes tr 0 models).2.map (fun r => ⟨r, .disabled, .colorModeForRenderPass⟩)
  else
    (gatherMeshes tr 0 models).2.map (fun r => ⟨r, .disabled, .disabled⟩) ++
      (gatherMeshes tr 0 models).2.map
        (fun r => ⟨r, .stencilModeFor3D, .colorModeForRenderPass⟩)) ++
  (sortByDepthDescending (gatherMeshes tr 0 models).1).map
    (fun r => ⟨r, .disabled, .colorModeForRenderPass⟩)

mutual

/-- All nodes of a subtree, root first, in traversal order. -/
def allNodes (node : Node) : List Node :=
  match node with
  | .mk nodeMatrix nodeMeshes nodeChildren =>
    .mk nodeMatrix nodeMeshes nodeChildren :: allNodesList nodeChildren

/-- All nodes of a forest, in traversal order. -/
def allNodesList (nodes : List Node) : List Node :=
  match nodes with
  | [] => []
  | c :: cs => allNodes c ++ allNodesList cs

end

/-- The invariant of every record in the transparent list: it is a `BLEND`
mesh, its transformed centroid depth is strictly positive, and its recorded
depth is exactly that transformed depth. -/
def TransparentRecordInv (r : SortedMesh) : Prop :=
  r.mesh.material.alphaMode = "BLEND" ∧
    (transformMat4 r.mesh.centroid r.worldViewProjection).z > 0 ∧
    r.depth = (transformMat4 r.mesh.centroid r.worldViewProjection).z

theorem transparent_mem_classifyMeshes (meshes : List Mesh) (wvp nmm : Mat4) (i : ℕ) :
    ∀ r ∈ (classifyMeshes meshes wvp nmm i).1, TransparentRecordInv r := by
  induction meshes with
  | nil => intro r hr; simp [classifyMeshes] at hr
  | cons mesh rest ih =>
    intro r hr
    rw [classifyMeshes] at hr
    by_cases hb : mesh.material.alphaMode ≠ "BLEND"
    · rw [if_pos hb] at hr
      exact ih r hr
    · rw [if_neg hb] at hr
      push_neg at hb
      by_cases hz : (transformMat4 mesh.centroid wvp).z > 0
      · rw [if_pos hz] at hr
        rcases List.mem_cons.mp hr with h | h
        · subst h
          exact ⟨hb, hz, rfl⟩
        · exact ih r h
      · rw [if_neg hz] at hr
        exact ih r hr

mutual

theorem transparent_mem_prepareMeshes (tr : Transform) (node : Node) (M P : Mat4) (i : ℕ) :
    ∀ r ∈ (prepareMeshes tr node M P i).1, TransparentRecordInv r := by
  cases node with
  | mk nm ms cs =>
    intro r hr
    rw [prepareMeshes] at hr
    simp only at hr
    rcases List.mem_append.mp hr with h | h
    · exact transparent_mem_classifyMeshes ms _ _ i r h
    · exact transparent_mem_prepareMeshesChildren tr cs M P i r h

theorem transparent_mem_prepareMeshesChildren (tr : Transform) (nodes : List Node)
    (M P : Mat4) (i : ℕ) :
    ∀ r ∈ (prepareMeshesChildren tr nodes M P i).1, TransparentRecordInv r := by
  cases nodes with
  | nil => intro r hr; rw [prepareMeshesChildren] at hr; simp at hr
  | cons c cs =>
    intro r hr
    rw [prepareMeshesChildren] at hr
    simp only at hr
    rcases List.mem_append.mp hr with h | h
    · exact transparent_mem_prepareMeshes tr c M P i r h
    · exact transparent_mem_prepareMeshesChildren tr cs M P i r h

end

/-- C1: the claim says a `BLEND` mesh with transformed-centroid depth `≥ 0` is
culled.  The code (`src/unnamed/part_000`, line 220) does the opposite: it
KEEPS exactly the meshes with transformed depth `> 0` and culls depth `≤ 0`.
Amended statement proved here: every record in the drawn transparent set is a
`BLEND` mesh whose transformed centroid depth is strictly positive, and its
recorded sorting depth equals that transformed depth — so the culled meshes
are exactly those with depth `≤ 0`. -/
theorem prepareMeshes_culls_nonpositive_depth (tr : Transform) (node : Node)
    (M P : Mat4) (i : ℕ) (r : SortedMesh)
    (h : r ∈ (prepareMeshes tr node M P i).1) :
    r.mesh.material.alphaMode = "BLEND" ∧
      (transformMat4 r.mesh.centroid r.worldViewProjection).z > 0 ∧
      r.depth = (transformMat4 r.mesh.centroid r.worldViewProjection).z :=
  transparent_mem_prepareMeshes tr node M P i r h

/-- Example transform: mercator projection, identity conversions. -/
def exampleTransform : Transform := ⟨"mercator", id, mat4identity⟩

/-- Example `BLEND` mesh whose centroid `(0,0,1)` transforms (under identity
matrices) to clip-space depth `1 ≥ 0`. -/
def exampleBlendMesh : Mesh := ⟨⟨"BLEND"⟩, ⟨0, 0, 1⟩⟩

/-- Example node carrying `exampleBlendMesh`. -/
def exampleBlendNode : Node := .mk mat4identity [exampleBlendMesh] []

/-- C1 counterexample: under identity matrices the `BLEND` mesh with
transformed centroid depth `1 ≥ 0` IS in the drawn transparent set (with its
depth recorded), contradicting the claim that meshes with depth `≥ 0` are
excluded. -/
theorem prepareMeshes_keeps_depth_one_counterexample :
    ((prepareMeshes exampleTransform exampleBlendNode mat4identity mat4identity 0).1
      = [⟨exampleBlendMesh, 1, 0, mat4identity, mat4identity⟩]) ∧ (1 : ℚ) ≥ 0 := by
  constructor
  · simp [prepareMeshes, prepareMeshesChildren, classifyMeshes, exampleTransform,
      exampleBlendNode, exampleBlendMesh, mat4identity, mat4multiply, transformMat4]
  · norm_num

/-- C1 witness: the amended theorem applied to the concrete drawn record. -/
theorem prepareMeshes_culls_nonpositive_depth_witness :
    ((⟨exampleBlendMesh, 1, 0, mat4identity, mat4identity⟩ : SortedMesh)
        ∈ (prepareMeshes exampleTransform exampleBlendNode mat4identity mat4identity 0).1) ∧
      ((⟨"BLEND"⟩ : Material) = exampleBlendMesh.material ∧
        (transformMat4 exampleBlendMesh.centroid mat4identity).z > 0) := by
  have hmem : (⟨exampleBlendMesh, 1, 0, mat4identity, mat4identity⟩ : SortedMesh)
      ∈ (prepareMeshes exampleTransform exampleBlendNode mat4identity mat4identity 0).1 := by
    simp [prepareMeshes, prepareMeshesChildren, classifyMeshes, exampleTransform,
      exampleBlendNode, exampleBlendMesh, mat4identity, mat4multiply, transformMat4]
  have h := prepareMeshes_culls_nonpositive_depth exampleTransform exampleBlendNode
    mat4identity mat4identity 0 _ hmem
  exact ⟨hmem, by simp [exampleBlendMesh], h.2.1⟩

theorem mem_classifyMeshes_matrices (meshes : List Mesh) (wvp nmm : Mat4) (i : ℕ) :
    ∀ r, (r ∈ (classifyMeshes meshes wvp nmm i).1 ∨ r ∈ (classifyMeshes meshes wvp nmm i).2) →
      r.nodeModelMatrix = nmm ∧ r.worldViewProjection = wvp := by
  induction meshes with
  | nil => intro r hr; simp [classifyMeshes] at hr
  | cons mesh rest ih =>
    intro r hr
    rw [classifyMeshes] at hr
    by_cases hb : mesh.material.alphaMode ≠ "BLEND"
    · rw [if_pos hb] at hr
      rcases hr with h | h
      · exact ih r (Or.inl h)
      · rcases List.mem_cons.mp h with h' | h'
        · subst h'; exact ⟨rfl, rfl⟩
        · exact ih r (Or.inr h')
    · rw [if_neg hb] at hr
      by_cases hz : (transformMat4 mesh.centroid wvp).z > 0
      · rw [if_pos hz] at hr
        rcases hr with h | h
        · rcases List.mem_cons.mp h with h' | h'
          · subst h'; exact ⟨rfl, rfl⟩
          · exact ih r (Or.inl h')
        · exact ih r (Or.inr h)
      · rw [if_neg hz] at hr
        exact ih r hr

mutual

theorem worldMatrix_prepareMeshes (tr : Transform) (node : Node) (M P : Mat4) (i : ℕ) :
    ∀ r, (r ∈ (prepareMeshes tr node M P i).1 ∨ r ∈ (prepareMeshes tr node M P i).2) →
      ∃ nd ∈ allNodes node,
        r.nodeModelMatrix = mat4multiply
          (if tr.projectionName = "globe" then tr.convertModelMatrixForGlobe M else M)
          nd.matrix ∧
        r.worldViewProjection = mat4multiply P r.nodeModelMatrix := by
  cases node with
  | mk nm ms cs =>
    intro r hr
    rw [prepareMeshes] at hr
    simp only at hr
    have hsplit : (r ∈ (classifyMeshes ms
          (mat4multiply P (mat4multiply
            (if tr.projectionName = "globe" then tr.convertModelMatrixForGlobe M else M) nm))
          (mat4multiply
            (if tr.projectionName = "globe" then tr.convertModelMatrixForGlobe M else M) nm) i).1 ∨
        r ∈ (classifyMeshes ms
          (mat4multiply P (mat4multiply
            (if tr.projectionName = "globe" then tr.convertModelMatrixForGlobe M else M) nm))
          (mat4multiply
            (if tr.projectionName = "globe" then tr.convertModelMatrixForGlobe M else M) nm) i).2) ∨
        (r ∈ (prepareMeshesChildren tr cs M P i).1 ∨
          r ∈ (prepareMeshesChildren tr cs M P i).2) := by
      rcases hr with h | h
      · rcases List.mem_append.mp h with h' | h'
        · exact Or.inl (Or.inl h')
        · exact Or.inr (Or.inl h')
      · rcases List.mem_append.mp h with h' | h'
        · exact Or.inl (Or.inr h')
        · exact Or.inr (Or.inr h')
    rcases hsplit with h | h
    · have := mem_classifyMeshes_matrices ms _ _ i r h
      refine ⟨.mk nm ms cs, ?_, ?_, ?_⟩
      · rw [allNodes]; exact List.mem_cons_self _ _
      · rw [Node.matrix]; exact this.1
      · rw [this.1, this.2]
    · obtain ⟨nd, hnd, h1, h2⟩ := worldMatrix_prepareMeshesChildren tr cs M P i r h
      refine ⟨nd, ?_, h1, h2⟩
      rw [allNodes]
      exact List.mem_cons_of_mem _ hnd

theorem worldMatrix_prepareMeshesChildren (tr : Transform) (nodes : List Node)
    (M P : Mat4) (i : ℕ) :
    ∀ r, (r ∈ (prepareMeshesChildren tr nodes M P i).1 ∨
        r ∈ (prepareMeshesChildren tr nodes M P i).2) →
      ∃ nd ∈ allNodesList nodes,
        r.nodeModelMatrix = mat4multiply
          (if tr.projectionName = "globe" then tr.convertModelMatrixForGlobe M else M)
          nd.matrix ∧
        r.worldViewProjection = mat4multiply P r.nodeModelMatrix := by
  cases nodes with
  | nil => intro r hr; rw [prepareMeshesChildren] at hr; simp at hr
  | cons c cs =>
    intro r hr
    rw [prepareMeshesChildren] at hr
    simp only at hr
    have hsplit : (r ∈ (prepareMeshes tr c M P i).1 ∨ r ∈ (prepareMeshes tr c M P i).2) ∨
        (r ∈ (prepareMeshesChildren tr cs M P i).1 ∨
          r ∈ (prepareMeshesChildren tr cs M P i).2) := by
      rcases hr with h | h
      · rcases List.mem_append.mp h with h' | h'
        · exact Or.inl (Or.inl h')
        · exact Or.inr (Or.inl h')
      · rcases List.mem_append.mp h with h' | h'
        · exact Or.inl (Or.inr h')
        · exact Or.inr (Or.inr h')
    rcases hsplit with h | h
    · obtain ⟨nd, hnd, h1, h2⟩ := worldMatrix_prepareMeshes tr c M P i r h
      refine ⟨nd, ?_, h1, h2⟩
      rw [allNodesList]
      exact List.mem_append.mpr (Or.inl hnd)
    · obtain ⟨nd, hnd, h1, h2⟩ := worldMatrix_prepareMeshesChildren tr cs M P i r h
      refine ⟨nd, ?_, h1, h2⟩
      rw [allNodesList]
      exact List.mem_append.mpr (Or.inr hnd)

end

/-- C8: every record produced by the traversal — transparent or opaque, at any
depth of the node tree — has its world matrix equal to
`(globe-converted) modelMatrix * node.matrix` for some node of the tree, and
its world-view-projection equal to `projectionMatrix * world matrix`; ancestor
node matrices are never accumulated, because the recursion passes the original
`modelMatrix` to every child. -/
theorem prepareMeshes_world_matrix_is_model_times_node (tr : Transform) (node : Node)
    (M P : Mat4) (i : ℕ) (r : SortedMesh)
    (h : r ∈ (prepareMeshes tr node M P i).1 ∨ r ∈ (prepareMeshes tr node M P i).2) :
    ∃ nd ∈ allNodes node,
      r.nodeModelMatrix = mat4multiply
        (if tr.projectionName = "globe" then tr.convertModelMatrixForGlobe M else M)
        nd.matrix ∧
      r.worldViewProjection = mat4multiply P r.nodeModelMatrix :=
  worldMatrix_prepareMeshes tr node M P i r h

/-- Example opaque mesh. -/
def exampleOpaqueMesh : Mesh := ⟨⟨"OPAQUE"⟩, ⟨0, 0, 0⟩⟩

/-- Example two-level node tree: a meshless root whose child carries
`exampleOpaqueMesh`. -/
def exampleDeepNode : Node :=
  .mk mat4identity [] [.mk mat4identity [exampleOpaqueMesh] []]

/-- C8 witness: the theorem applied to the record produced by the depth-two
child of `exampleDeepNode`. -/
theorem prepareMeshes_world_matrix_is_model_times_node_witness :
    ((⟨exampleOpaqueMesh, 0, 0, mat4identity, mat4identity⟩ : SortedMesh)
        ∈ (prepareMeshes exampleTransform exampleDeepNode mat4identity mat4identity 0).2) ∧
      (∃ nd ∈ allNodes exampleDeepNode,
        (⟨exampleOpaqueMesh, 0, 0, mat4identity, mat4identity⟩ : SortedMesh).nodeModelMatrix
          = mat4multiply
            (if exampleTransform.projectionName = "globe" then
              exampleTransform.convertModelMatrixForGlobe mat4identity else mat4identity)
            nd.matrix ∧
        (⟨exampleOpaqueMesh, 0, 0, mat4identity, mat4identity⟩ : SortedMesh).worldViewProjection
          = mat4multiply mat4identity
            (⟨exampleOpaqueMesh, 0, 0, mat4identity, mat4identity⟩ : SortedMesh).nodeModelMatrix) := by
  have hmem : (⟨exampleOpaqueMesh, 0, 0, mat4identity, mat4identity⟩ : SortedMesh)
      ∈ (prepareMeshes exampleTransform exampleDeepNode mat4identity mat4identity 0).2 := by
    simp [prepareMeshes, prepareMeshesChildren, classifyMeshes, exampleTransform,
      exampleDeepNode, exampleOpaqueMesh, mat4identity, mat4multiply, transformMat4]
  exact ⟨hmem, prepareMeshes_world_matrix_is_model_times_node exampleTransform exampleDeepNode
    mat4identity mat4identity 0 _ (Or.inr hmem)⟩

/-- The comparator of the transparent sort is transitive. -/
theorem depthLe_trans (a b c : SortedMesh) :
    decide (b.depth ≤ a.depth) = true → decide (c.depth ≤ b.depth) = true →
      decide (c.depth ≤ a.depth) = true := by
  intro h1 h2
  exact decide_eq_true (le_trans (of_decide_eq_true h2) (of_decide_eq_true h1))

/-- The comparator of the transparent sort is total. -/
theorem depthLe_total (a b : SortedMesh) :
    (decide (b.depth ≤ a.depth) || decide (a.depth ≤ b.depth)) = true := by
  rcases le_total b.depth a.depth with h | h
  · simp [h]
  · simp [h]

/-- C2: in the draw sequence of `drawModels` (when the opacity early-return
does not fire), the transparent records are drawn in stable descending-depth
order and after all opaque draws: (i) the sorted transparent list is pairwise
descending in depth, (ii) two records of equal depth keep their traversal
order (stability, stated via sublists), and (iii) the full sequence is the
opaque draws — all of whose records come from the opaque traversal list —
followed by the sorted transparent draws. -/
theorem drawModels_transparent_sorted_stable_last (opacity : ℚ) (loaded : Bool)
    (stype : String) (tr : Transform) (models : List (Mat4 × List Node))
    (hop : opacity ≠ 0) (hl : loaded = true)
    (hv : stype ≠ "vector") (hg : stype ≠ "geojson") :
    (sortByDepthDescending (gatherMeshes tr 0 models).1).Pairwise
      (fun a b => b.depth ≤ a.depth) ∧
    (∀ a b : SortedMesh, a.depth = b.depth →
      List.Sublist [a, b] (gatherMeshes tr 0 models).1 →
      List.Sublist [a, b] (sortByDepthDescending (gatherMeshes tr 0 models).1)) ∧
    (∃ opaqueDraws : List DrawCall,
      drawModels "translucent" opacity loaded stype tr models =
        opaqueDraws ++ (sortByDepthDescending (gatherMeshes tr 0 models).1).map
          (fun r => ⟨r, .disabled, .colorModeForRenderPass⟩) ∧
      ∀ d ∈ opaqueDraws, d.record ∈ (gatherMeshes tr 0 models).2) := by
  refine ⟨?_, ?_, ?_⟩
  · have h := List.sorted_mergeSort depthLe_trans depthLe_total
      (gatherMeshes tr 0 models).1
    exact h.imp (fun hab => of_decide_eq_true hab)
  · intro a b hab hsub
    refine List.sublist_mergeSort depthLe_trans depthLe_total ?_ hsub
    simp [List.pairwise_cons, hab]
  · refine ⟨(if opacity = 1 then
        (gatherMeshes tr 0 models).2.map (fun r => ⟨r, .disabled, .colorModeForRenderPass⟩)
      else
        (gatherMeshes tr 0 models).2.map (fun r => ⟨r, .disabled, .disabled⟩) ++
          (gatherMeshes tr 0 models).2.map
            (fun r => ⟨r, .stencilModeFor3D, .colorModeForRenderPass⟩)), ?_, ?_⟩
    · rw [drawModels]
      rw [if_neg (by simp), if_neg hop, if_neg (by simp [hl]), if_neg (by simp [hv, hg])]
    · intro d hd
      by_cases h1 : opacity = 1
      · rw [if_pos h1] at hd
        obtain ⟨r, hr, hdr⟩ := List.mem_map.mp hd
        rw [← hdr]
        exact hr
      · rw [if_neg h1] at hd
        rcases List.mem_append.mp hd with h | h
        · obtain ⟨r, hr, hdr⟩ := List.mem_map.mp h
          rw [← hdr]
          exact hr
        · obtain ⟨r, hr, hdr⟩ := List.mem_map.mp h
          rw [← hdr]
          exact hr

/-- Example model list: one model carrying two `BLEND` meshes at transformed
depths `1` and `2` (so the sort must swap them into `[2, 1]`). -/
def exampleTransparentModels : List (Mat4 × List Node) :=
  [(mat4identity, [.mk mat4identity [⟨⟨"BLEND"⟩, ⟨0, 0, 1⟩⟩, ⟨⟨"BLEND"⟩, ⟨0, 0, 2⟩⟩] []])]

/-- C2 witness: the theorem applied at a concrete opacity and model list. -/
theorem drawModels_transparent_sorted_stable_last_witness :
    ((1 / 2 : ℚ) ≠ 0 ∧ ("batched-model" : String) ≠ "vector" ∧
      ("batched-model" : String) ≠ "geojson") ∧
    ((sortByDepthDescending (gatherMeshes exampleTransform 0 exampleTransparentModels).1).Pairwise
      (fun a b => b.depth ≤ a.depth) ∧
    (∀ a b : SortedMesh, a.depth = b.depth →
      List.Sublist [a, b] (gatherMeshes exampleTransform 0 exampleTransparentModels).1 →
      List.Sublist [a, b]
        (sortByDepthDescending (gatherMeshes exampleTransform 0 exampleTransparentModels).1)) ∧
    (∃ opaqueDraws : List DrawCall,
      drawModels "translucent" (1 / 2) true "batched-model" exampleTransform
          exampleTransparentModels =
        opaqueDraws ++
          (sortByDepthDescending (gatherMeshes exampleTransform 0 exampleTransparentModels).1).map
            (fun r => ⟨r, .disabled, .colorModeForRenderPass⟩) ∧
      ∀ d ∈ opaqueDraws,
        d.record ∈ (gatherMeshes exampleTransform 0 exampleTransparentModels).2)) :=
  ⟨⟨by norm_num, by decide, by decide⟩,
    drawModels_transparent_sorted_stable_last (1 / 2) true "batched-model" exampleTransform
      exampleTransparentModels (by norm_num) rfl (by decide) (by decide)⟩

theorem filter_record_map_of_not_mem (l : List SortedMesh) (r : SortedMesh)
    (s : StencilModeUsed) (c : ColorModeUsed) (h : r ∉ l) :
    (l.map (fun x => DrawCall.mk x s c)).filter (fun d => d.record == r) = [] := by
  induction l with
  | nil => rfl
  | cons a t ih =>
    have ha : ¬(a = r) := fun har => h (har ▸ List.mem_cons_self a t)
    have ht : r ∉ t := fun hrt => h (List.mem_cons_of_mem a hrt)
    simp only [List.map_cons, List.filter_cons]
    rw [if_neg (by simp [DrawCall.record, ha])]
    exact ih ht

theorem filter_record_map_of_count_one (l : List SortedMesh) (r : SortedMesh)
    (s : StencilModeUsed) (c : ColorModeUsed) (h : l.count r = 1) :
    (l.map (fun x => DrawCall.mk x s c)).filter (fun d => d.record == r) = [⟨r, s, c⟩] := by
  induction l with
  | nil => simp at h
  | cons a t ih =>
    by_cases har : a = r
    · subst har
      have ht : t.count a = 0 := by
        have := List.count_cons_self a t
        omega
      have hnot : a ∉ t := by
        intro hmem
        have := List.count_pos_iff.mpr hmem
        omega
      simp only [List.map_cons, List.filter_cons]
      rw [if_pos (by simp [DrawCall.record])]
      rw [filter_record_map_of_not_mem t a s c hnot]
    · have hc : t.count r = 1 := by
        have hcc := List.count_cons r a t
        rw [hcc] at h
        simpa [har] using h
      simp only [List.map_cons, List.filter_cons]
      rw [if_neg (by simp [DrawCall.record, har])]
      exact ih hc

/-- C3: opaque-pass draw counts of `drawModels` for an opaque record `r`
appearing exactly once in the opaque traversal list and not among the
transparent records.  With `0 < opacity < 1` the mesh is drawn exactly twice —
first with color writes disabled and stencil disabled, then with the 3D
stencil mode and the render pass's color mode; with `opacity = 1` exactly
once; with `opacity = 0` the whole function returns early and draws nothing. -/
theorem drawModels_opaque_pass_counts (opacity : ℚ) (stype : String) (tr : Transform)
    (models : List (Mat4 × List Node)) (r : SortedMesh)
    (hv : stype ≠ "vector") (hg : stype ≠ "geojson")
    (hcount : ((gatherMeshes tr 0 models).2).count r = 1)
    (hnt : r ∉ (gatherMeshes tr 0 models).1) :
    (0 < opacity → opacity < 1 →
      (drawModels "translucent" opacity true stype tr models).filter
          (fun d => d.record == r) =
        [⟨r, .disabled, .disabled⟩, ⟨r, .stencilModeFor3D, .colorModeForRenderPass⟩]) ∧
    (opacity = 1 →
      (drawModels "translucent" opacity true stype tr models).filter
          (fun d => d.record == r) =
        [⟨r, .disabled, .colorModeForRenderPass⟩]) ∧
    (opacity = 0 → drawModels "translucent" opacity true stype tr models = []) := by
  have hns : r ∉ sortByDepthDescending (gatherMeshes tr 0 models).1 := by
    intro hmem
    exact hnt (((gatherMeshes tr 0 models).1.mergeSort_perm
      (fun a b => decide (b.depth ≤ a.depth))).mem_iff.mp hmem)
  refine ⟨?_, ?_, ?_⟩
  · intro h0 h1
    rw [drawModels]
    rw [if_neg (by simp), if_neg (by exact ne_of_gt h0), if_neg (by simp),
      if_neg (by simp [hv, hg])]
    rw [if_neg (by exact ne_of_lt h1)]
    simp only [List.filter_append]
    rw [filter_record_map_of_count_one _ r _ _ hcount,
      filter_record_map_of_count_one _ r _ _ hcount,
      filter_record_map_of_not_mem _ r _ _ hns]
    rfl
  · intro h1
    rw [drawModels]
    rw [if_neg (by simp), if_neg (by rw [h1]; norm_num), if_neg (by simp),
      if_neg (by simp [hv, hg])]
    rw [if_pos h1]
    simp only [List.filter_append]
    rw [filter_record_map_of_count_one _ r _ _ hcount,
      filter_record_map_of_not_mem _ r _ _ hns]
    rfl
  · intro h0
    rw [drawModels]
    rw [if_neg (by simp), if_pos h0]

/-- The record produced by traversing `exampleOpaqueModels`. -/
def exampleOpaqueRecord : SortedMesh :=
  ⟨exampleOpaqueMesh, 0, 0, mat4identity, mat4identity⟩

/-- Example model list: one model carrying a single opaque mesh. -/
def exampleOpaqueModels : List (Mat4 × List Node) :=
  [(mat4identity, [.mk mat4identity [exampleOpaqueMesh] []])]

/-- C3 witness: the theorem applied at opacity `1/2` to a model list with one
opaque mesh; all hypotheses are discharged on the concrete data. -/
theorem drawModels_opaque_pass_counts_witness :
    (((gatherMeshes exampleTransform 0 exampleOpaqueModels).2).count exampleOpaqueRecord = 1 ∧
      exampleOpaqueRecord ∉ (gatherMeshes exampleTransform 0 exampleOpaqueModels).1 ∧
      (0 : ℚ) < 1 / 2 ∧ (1 / 2 : ℚ) < 1) ∧
    (drawModels "translucent" (1 / 2) true "batched-model" exampleTransform
        exampleOpaqueModels).filter (fun d => d.record == exampleOpaqueRecord) =
      [⟨exampleOpaqueRecord, .disabled, .disabled⟩,
        ⟨exampleOpaqueRecord, .stencilModeFor3D, .colorModeForRenderPass⟩] := by
  have hgather : gatherMeshes exampleTransform 0 exampleOpaqueModels =
      ([], [exampleOpaqueRecord]) := by
    simp [gatherMeshes, prepareMeshes, prepareMeshesChildren, classifyMeshes,
      exampleTransform, exampleOpaqueModels, exampleOpaqueMesh, exampleOpaqueRecord,
      mat4identity, mat4multiply, transformMat4]
  have hcount : ((gatherMeshes exampleTransform 0 exampleOpaqueModels).2).count
      exampleOpaqueRecord = 1 := by
    rw [hgather]
    simp
  have hnt : exampleOpaqueRecord ∉ (gatherMeshes exampleTransform 0 exampleOpaqueModels).1 := by
    rw [hgather]
    simp
  exact ⟨⟨hcount, hnt, by norm_num, by norm_num⟩,
    (drawModels_opaque_pass_counts (1 / 2) "batched-model" exampleTransform
      exampleOpaqueModels exampleOpaqueRecord (by decide) (by decide) hcount hnt).1
      (by norm_num) (by norm_num)⟩

/-! ## Shadow renderer (`src/3d-style/render/shadow_renderer.js`) -/

/-- `const cascadeCount = 2` (shadow_renderer.js, line 42). -/
def cascadeCount : ℕ := 2

/-- `const shadowMapResolution = 2048` (shadow_renderer.js, line 43). -/
def shadowMapResolution : ℕ := 2048

/-- The near/far depth range of one shadow cascade. -/
structure CascadeRange where
  near : ℚ
  far : ℚ
deriving DecidableEq, Repr

/-- The per-cascade near/far computation of `updateShadowParameters`
(shadow_renderer.js, lines 136–154): `cascadeSplitDist` is
`cameraToCenterDistance * 1.5`, `shadowCutoutDist` is `cascadeSplitDist * 3`,
`near` starts at `transform.height / 50` and `far` at `1`, then the branch on
`cascadeCount` and `cascadeIndex` assigns the final range. -/
def cascadeNearFar (height cameraToCenterDistance : ℚ) (cascadeIndex : ℕ) : CascadeRange :=
  let cascadeSplitDist := cameraToCenterDistance * 1.5
  let shadowCutoutDist := cascadeSplitDist * 3
  let near := height / 50
  let far : ℚ := 1
  if cascadeCount = 1 then
    { near := near, far := shadowCutoutDist }
  else if cascadeIndex = 0 then
    { near := near, far := cascadeSplitDist }
  else
    { near := cascadeSplitDist, far := shadowCutoutDist }

/-- C4: with `cascadeCount = 2`, cascade 0 covers
`[height / 50, 1.5 * cameraToCenterDistance]` and cascade 1 covers
`[1.5 * cameraToCenterDistance, 3 * (1.5 * cameraToCenterDistance)]`; cascade
0's far distance equals cascade 1's near distance, and the open interiors of
the two ranges are disjoint. -/
theorem cascadeNearFar_split_scheme (height cameraToCenterDistance : ℚ) :
    cascadeNearFar height cameraToCenterDistance 0 =
      { near := height / 50, far := 1.5 * cameraToCenterDistance } ∧
    cascadeNearFar height cameraToCenterDistance 1 =
      { near := 1.5 * cameraToCenterDistance,
        far := 3 * (1.5 * cameraToCenterDistance) } ∧
    (cascadeNearFar height cameraToCenterDistance 0).far =
      (cascadeNearFar height cameraToCenterDistance 1).near ∧
    (∀ x : ℚ, ¬(((cascadeNearFar height cameraToCenterDistance 0).near < x ∧
        x < (cascadeNearFar height cameraToCenterDistance 0).far) ∧
      ((cascadeNearFar height cameraToCenterDistance 1).near < x ∧
        x < (cascadeNearFar height cameraToCenterDistance 1).far))) := by
  have h0 : cascadeNearFar height cameraToCenterDistance 0 =
      { near := height / 50, far := 1.5 * cameraToCenterDistance } := by
    rw [cascadeNearFar]
    norm_num [cascadeCount]
    ring
  have h1 : cascadeNearFar height cameraToCenterDistance 1 =
      { near := 1.5 * cameraToCenterDistance,
        far := 3 * (1.5 * cameraToCenterDistance) } := by
    rw [cascadeNearFar]
    norm_num [cascadeCount]
    constructor
    · ring
    · ring
  refine ⟨h0, h1, ?_, ?_⟩
  · rw [h0, h1]
  · intro x hx
    rw [h0, h1] at hx
    simp only at hx
    linarith [hx.1.2, hx.2.1]

/-- C4 witness: the split scheme evaluated at `height = 100`,
`cameraToCenterDistance = 2`: cascade 0 is `[2, 3]`, cascade 1 is `[3, 9]`,
the shared boundary holds, and no point (for instance `5/2`) lies strictly
inside both ranges. -/
theorem cascadeNearFar_split_scheme_witness :
    (cascadeNearFar 100 2 0 = { near := 100 / 50, far := 1.5 * 2 } ∧
      cascadeNearFar 100 2 1 = { near := 1.5 * 2, far := 3 * (1.5 * 2) }) ∧
    ((cascadeNearFar 100 2 0).far = (cascadeNearFar 100 2 1).near ∧
      ¬(((cascadeNearFar 100 2 0).near < 5 / 2 ∧
          (5 / 2 : ℚ) < (cascadeNearFar 100 2 0).far) ∧
        ((cascadeNearFar 100 2 1).near < 5 / 2 ∧
          (5 / 2 : ℚ) < (cascadeNearFar 100 2 1).far))) :=
  ⟨⟨(cascadeNearFar_split_scheme 100 2).1, (cascadeNearFar_split_scheme 100 2).2.1⟩,
    (cascadeNearFar_split_scheme 100 2).2.2.1,
    (cascadeNearFar_split_scheme 100 2).2.2.2 (5 / 2)⟩

/-- The half-FOV constant of `createLightMatrix` (shadow_renderer.js,
line 394): `k = sqrt(1 + aspect²) * tan(fovX * 0.5)`. -/
noncomputable def createLightMatrixK (aspect fovX : ℝ) : ℝ :=
  Real.sqrt (1 + aspect * aspect) * Real.tan (fovX * 0.5)

/-- The minimal-bounding-sphere computation of `createLightMatrix`
(shadow_renderer.js, lines 393–407), returning `(centerDepth, radius)` of the
bounding sphere of the camera frustum slice `[near, far]`. -/
noncomputable def createLightMatrixBoundingSphere (aspect fovX near far : ℝ) : ℝ × ℝ :=
  let k := createLightMatrixK aspect fovX
  let k2 := k * k
  let farMinusNear := far - near
  let farPlusNear := far + near
  if k2 > farMinusNear / farPlusNear then
    (far, far * k)
  else
    (0.5 * farPlusNear * (1 + k2),
      0.5 * Real.sqrt (farMinusNear * farMinusNear +
        2 * (far * far + near * near) * k2 + farPlusNear * farPlusNear * k2 * k2))

/-- C5: with `k = sqrt(1 + aspect²) * tan(fovX / 2)`, if
`k² > (far − near) / (far + near)` the sphere is centered at depth `far` with
radius `far * k`; otherwise its center depth is `0.5 * (far + near) * (1 + k²)`
and its radius is
`0.5 * sqrt((far − near)² + 2 * (far² + near²) * k² + (far + near)² * k⁴)`. -/
theorem createLightMatrixBoundingSphere_cases (aspect fovX near far : ℝ) :
    ((createLightMatrixK aspect fovX) ^ 2 > (far - near) / (far + near) →
      createLightMatrixBoundingSphere aspect fovX near far =
        (far, far * createLightMatrixK aspect fovX)) ∧
    (¬((createLightMatrixK aspect fovX) ^ 2 > (far - near) / (far + near)) →
      createLightMatrixBoundingSphere aspect fovX near far =
        (0.5 * (far + near) * (1 + (createLightMatrixK aspect fovX) ^ 2),
          0.5 * Real.sqrt ((far - near) ^ 2 +
            2 * (far ^ 2 + near ^ 2) * (createLightMatrixK aspect fovX) ^ 2 +
            (far + near) ^ 2 * (createLightMatrixK aspect fovX) ^ 4))) := by
  constructor
  · intro h
    rw [createLightMatrixBoundingSphere]
    rw [if_pos (by rw [← sq]; exact h)]
  · intro h
    rw [createLightMatrixBoundingSphere]
    rw [if_neg (by rw [← sq]; exact h)]
    have harg : (far - near) * (far - near) +
        2 * (far * far + near * near) *
          (createLightMatrixK aspect fovX * createLightMatrixK aspect fovX) +
        (far + near) * (far + near) *
          (createLightMatrixK aspect fovX * createLightMatrixK aspect fovX) *
          (createLightMatrixK aspect fovX * createLightMatrixK aspect fovX) =
        (far - near) ^ 2 + 2 * (far ^ 2 + near ^ 2) * (createLightMatrixK aspect fovX) ^ 2 +
          (far + near) ^ 2 * (createLightMatrixK aspect fovX) ^ 4 := by
      ring
    rw [harg, sq (createLightMatrixK aspect fovX)]

/-- C5 witness: with `aspect = 0`, `fovX = 0`, `near = 2`, `far = 1` the
constant `k` is `0`, the guard `k² > (far − near)/(far + near) = −1/3` holds,
and the sphere is `(far, far * k)`. -/
theorem createLightMatrixBoundingSphere_cases_witness :
    ((createLightMatrixK 0 0) ^ 2 > ((1 : ℝ) - 2) / (1 + 2)) ∧
      createLightMatrixBoundingSphere 0 0 2 1 = (1, 1 * createLightMatrixK 0 0) := by
  have hk : createLightMatrixK 0 0 = 0 := by
    rw [createLightMatrixK]
    norm_num
  have hguard : (createLightMatrixK 0 0) ^ 2 > ((1 : ℝ) - 2) / (1 + 2) := by
    rw [hk]
    norm_num
  exact ⟨hguard, (createLightMatrixBoundingSphere_cases 0 0 2 1).1 hguard⟩

/-- The directional-light properties `updateShadowParameters` reads:
`cast-shadows` and `shadow-intensity`. -/
structure DirectionalLightProperties where
  castShadows : Bool
  shadowIntensity : ℚ
deriving DecidableEq, Repr

/-- The per-layer predicates the shadow renderer reads from the style: the
layer's `hasShadowPass()`, its `isHidden(zoom)`, its `type`, and whether its
source cache currently contributes any tile coords
(`coords && coords.length`). -/
structure StyleLayer where
  hasShadowPass : Bool
  isHidden : ℚ → Bool
  layerType : String
  hasCoords : Bool

/-- The shadow-enable state recomputed each frame
(`this._enabled`, `this._shadowLayerCount`). -/
structure ShadowState where
  enabled : Bool
  shadowLayerCount : ℕ
deriving DecidableEq, Repr

/-- The enable logic of `updateShadowParameters` (shadow_renderer.js,
lines 71–97): reset to disabled, bail out unless the context is WebGL2 and a
directional light with properties exists; bail out unless
`cast-shadows === true` and `shadow-intensity > 0`; count the style layers
that have a shadow pass and are not hidden at the current zoom; enabled iff
that count is positive. -/
def updateShadowParameters (isWebGL2 : Bool)
    (directionalLight : Option DirectionalLightProperties)
    (layers : List StyleLayer) (zoom : ℚ) : ShadowState :=
  if ¬ isWebGL2 then ⟨false, 0⟩ else
  match directionalLight with
  | none => ⟨false, 0⟩
  | some props =>
    if props.castShadows ≠ true ∨ props.shadowIntensity ≤ 0 then ⟨false, 0⟩
    else
      let count := layers.foldl
        (fun acc layer =>
          acc + (if layer.hasShadowPass ∧ layer.isHidden zoom = false then 1 else 0)) 0
      ⟨decide (count > 0), count⟩

/-- An observable GPU action of `drawShadowPass`, in issue order. -/
inductive ShadowPassEvent where
  | bindFramebuffer (cascade : ℕ)
  | clear (cascade : ℕ)
  | renderLayer (cascade : ℕ) (layerIndex : ℕ)
deriving DecidableEq, Repr

/-- `drawShadowPass` (shadow_renderer.js, lines 179–210), modelled as its
sequence of observable actions: nothing when disabled; otherwise, per cascade,
bind the cascade's framebuffer, clear it, and render every style layer that
has a shadow pass, is not hidden at the current zoom, and either is a `model`
layer or has a non-empty coord list. -/
def drawShadowPass (state : ShadowState) (layers : List StyleLayer) (zoom : ℚ) :
    List ShadowPassEvent :=
  if ¬ state.enabled then [] else
  (List.range cascadeCount).flatMap (fun cascade =>
    ShadowPassEvent.bindFramebuffer cascade :: ShadowPassEvent.clear cascade ::
      (layers.enum.filterMap (fun p =>
        if p.2.hasShadowPass ∧ p.2.isHidden zoom = false ∧
            (p.2.layerType = "model" ∨ p.2.hasCoords) then
          some (ShadowPassEvent.renderLayer cascade p.1)
        else
          none)))

theorem foldl_shadow_count (layers : List StyleLayer) (zoom : ℚ) (n : ℕ) :
    layers.foldl
        (fun acc layer =>
          acc + (if layer.hasShadowPass ∧ layer.isHidden zoom = false then 1 else 0)) n =
      n + layers.foldl
        (fun acc layer =>
          acc + (if layer.hasShadowPass ∧ layer.isHidden zoom = false then 1 else 0)) 0 := by
  induction layers generalizing n with
  | nil => simp
  | cons a t ih =>
    simp only [List.foldl_cons]
    rw [ih, ih (0 + _)]
    omega

theorem shadow_count_pos_iff (layers : List StyleLayer) (zoom : ℚ) :
    0 < layers.foldl
        (fun acc layer =>
          acc + (if layer.hasShadowPass ∧ layer.isHidden zoom = false then 1 else 0)) 0 ↔
      ∃ layer ∈ layers, layer.hasShadowPass = true ∧ layer.isHidden zoom = false := by
  induction layers with
  | nil => simp
  | cons a t ih =>
    simp only [List.foldl_cons, Nat.zero_add]
    rw [foldl_shadow_count]
    by_cases ha : a.hasShadowPass ∧ a.isHidden zoom = false
    · rw [if_pos ha]
      constructor
      · intro _
        exact ⟨a, List.mem_cons_self a t, ha.1, ha.2⟩
      · intro _
        omega
    · rw [if_neg ha]
      simp only [Nat.zero_add]
      rw [ih]
      constructor
      · intro ⟨layer, hmem, h1, h2⟩
        exact ⟨layer, List.mem_cons_of_mem a hmem, h1, h2⟩
      · intro ⟨layer, hmem, h1, h2⟩
        rcases List.mem_cons.mp hmem with heq | hmem'
        · exact absurd ⟨heq ▸ h1, heq ▸ h2⟩ ha
        · exact ⟨layer, hmem', h1, h2⟩

/-- C6: after `updateShadowParameters`, `enabled` is true iff the context is
WebGL2, a directional light exists with `cast-shadows = true` and
`shadow-intensity > 0`, and some style layer has a shadow pass and is not
hidden at the current zoom; and whenever `cast-shadows` is false, `enabled` is
false and `drawShadowPass` issues no action at all (in particular it binds no
framebuffer). -/
theorem updateShadowParameters_enabled_iff (isWebGL2 : Bool)
    (directionalLight : Option DirectionalLightProperties)
    (layers : List StyleLayer) (zoom : ℚ) :
    ((updateShadowParameters isWebGL2 directionalLight layers zoom).enabled = true ↔
      (isWebGL2 = true ∧ ∃ props, directionalLight = some props ∧
        props.castShadows = true ∧ props.shadowIntensity > 0 ∧
        ∃ layer ∈ layers, layer.hasShadowPass = true ∧ layer.isHidden zoom = false)) ∧
    (∀ props, directionalLight = some props → props.castShadows = false →
      (updateShadowParameters isWebGL2 directionalLight layers zoom).enabled = false ∧
      drawShadowPass (updateShadowParameters isWebGL2 directionalLight layers zoom)
        layers zoom = []) := by
  constructor
  · constructor
    · intro h
      rw [updateShadowParameters.eq_def] at h
      by_cases hw : isWebGL2
      · rw [if_neg (by simp [hw])] at h
        match hdl : directionalLight with
        | none => simp at h
        | some props =>
          simp only at h
          by_cases hcs : props.castShadows ≠ true ∨ props.shadowIntensity ≤ 0
          · rw [if_pos hcs] at h; simp at h
          · rw [if_neg hcs] at h
            push_neg at hcs
            simp only [decide_eq_true_eq] at h
            exact ⟨hw, props, rfl, hcs.1, hcs.2,
              (shadow_count_pos_iff layers zoom).mp h⟩
      · rw [if_pos (by simp [hw])] at h
        simp at h
    · intro ⟨hw, props, hdl, hcs, hsi, hlayer⟩
      rw [updateShadowParameters.eq_def, hdl]
      rw [if_neg (by simp [hw])]
      simp only
      rw [if_neg (by push_neg; exact ⟨hcs, by linarith⟩)]
      simp only [decide_eq_true_eq]
      exact (shadow_count_pos_iff layers zoom).mpr hlayer
  · intro props hdl hfalse
    have hen : (updateShadowParameters isWebGL2 directionalLight layers zoom).enabled = false := by
      rw [updateShadowParameters.eq_def, hdl]
      by_cases hw : isWebGL2
      · rw [if_neg (by simp [hw])]
        simp only
        rw [if_pos (Or.inl (by rw [hfalse]; simp))]
      · rw [if_pos (by simp [hw])]
    refine ⟨hen, ?_⟩
    rw [drawShadowPass, if_pos (by rw [hen]; simp)]

/-- C6 witness: a WebGL2 context, a directional light with
`cast-shadows = false`, and one eligible layer still yield `enabled = false`
and an empty `drawShadowPass` action sequence. -/
theorem updateShadowParameters_enabled_iff_witness :
    ((some ⟨false, 1⟩ : Option DirectionalLightProperties) = some ⟨false, 1⟩ ∧
      (⟨false, 1⟩ : DirectionalLightProperties).castShadows = false) ∧
    ((updateShadowParameters true (some ⟨false, 1⟩)
        [⟨true, fun _ => false, "model", true⟩] 0).enabled = false ∧
      drawShadowPass (updateShadowParameters true (some ⟨false, 1⟩)
        [⟨true, fun _ => false, "model", true⟩] 0)
        [⟨true, fun _ => false, "model", true⟩] 0 = []) :=
  ⟨⟨rfl, rfl⟩,
    (updateShadowParameters_enabled_iff true (some ⟨false, 1⟩)
      [⟨true, fun _ => false, "model", true⟩] 0).2 ⟨false, 1⟩ rfl rfl⟩

/-- A 3-component real vector for the shadow-direction math. -/
structure Vec3R where
  x : ℝ
  y : ℝ
  z : ℝ

/-- Degrees to radians. -/
noncomputable def degToRad (deg : ℝ) : ℝ := deg * Real.pi / 180

/-- Radians to degrees. -/
noncomputable def radToDeg (rad : ℝ) : ℝ := rad * 180 / Real.pi

/-- Modelled from the spec: `clamp(n, min, max)` from `src/util/util.js` is
not under `src/`; it constrains `n` to lie in `[lo, hi]`. -/
noncomputable def clamp (n lo hi : ℝ) : ℝ := min (max n lo) hi

/-- Modelled from the spec: `cartesianPositionToSpherical(x, y, z)` from
`src/util/util.js` is not under `src/`.  It returns
`[radial, azimuthal, polar]` with the radial coordinate the Euclidean norm,
the polar angle `arccos(z / radial)` in degrees (the spec's
`pitch = arccos(dirZ)` for a unit direction), and the azimuthal angle the
planar angle of `(x, y)` in degrees (irrelevant to the polar clamping). -/
noncomputable def cartesianPositionToSpherical (x y z : ℝ) : ℝ × ℝ × ℝ :=
  let radial := Real.sqrt (x * x + y * y + z * z)
  let polar := radToDeg (Real.arccos (z / radial))
  let azimuthal := radToDeg (Complex.arg ⟨x, y⟩)
  (radial, azimuthal, polar)

/-- Modelled from the spec: `sphericalPositionToCartesian([r, azimuthal,
polar])` from `src/util/util.js` is not under `src/`.  The standard inverse
conversion with angles in degrees and the polar angle measured from the
`+z` axis, so the `z` component is `r * cos(polar)`. -/
noncomputable def sphericalPositionToCartesian (r azimuthal polar : ℝ) : Vec3R :=
  let a := degToRad azimuthal
  let p := degToRad polar
  ⟨r * Real.cos a * Real.sin p, r * Real.sin a * Real.sin p, r * Real.cos p⟩

/-- `shadowDirectionFromProperties` (shadow_renderer.js, lines 333–348):
convert the light direction to spherical coordinates, clamp the polar
coordinate to `[0, 75]` degrees (`MaxPolarCoordinate = 75.0`), and convert
back to cartesian. -/
noncomputable def shadowDirectionFromProperties (direction : Vec3R) : Vec3R :=
  let spherical := cartesianPositionToSpherical direction.x direction.y direction.z
  let clamped := clamp spherical.2.2 0 75
  sphericalPositionToCartesian spherical.1 spherical.2.1 clamped

/-- C10: for every unit light direction, the polar coordinate is clamped to at
most 75 degrees, so the produced shadow direction has `z ≥ cos(75°) > 0`; in
particular the division by `shadowDirection[2]` in `createLightMatrix`
(line 474) never divides by zero for a direction the renderer itself
supplies. -/
theorem shadowDirectionFromProperties_z_bounded_away_from_zero (direction : Vec3R)
    (hunit : direction.x * direction.x + direction.y * direction.y +
      direction.z * direction.z = 1) :
    (shadowDirectionFromProperties direction).z ≥ Real.cos (degToRad 75) ∧
      (shadowDirectionFromProperties direction).z > 0 ∧
      (shadowDirectionFromProperties direction).z ≠ 0 := by
  have hradial : Real.sqrt (direction.x * direction.x + direction.y * direction.y +
      direction.z * direction.z) = 1 := by
    rw [hunit, Real.sqrt_one]
  have hpi : (0 : ℝ) < Real.pi := Real.pi_pos
  set polar := radToDeg (Real.arccos (direction.z / 1)) with hpolar
  have hpolar_nonneg : 0 ≤ polar := by
    rw [hpolar, radToDeg]
    have := Real.arccos_nonneg (direction.z / 1)
    positivity
  have hclamped : clamp polar 0 75 = min polar 75 := by
    rw [clamp, max_eq_left hpolar_nonneg]
  have hc_nonneg : 0 ≤ min polar 75 := le_min hpolar_nonneg (by norm_num)
  have hc_le : min polar 75 ≤ 75 := min_le_right _ _
  have hzval : (shadowDirectionFromProperties direction).z =
      1 * Real.cos (degToRad (min polar 75)) := by
    rw [shadowDirectionFromProperties]
    simp only [cartesianPositionToSpherical, sphericalPositionToCartesian]
    rw [hradial, hclamped]
  have hangle_le : degToRad (min polar 75) ≤ degToRad 75 := by
    rw [degToRad, degToRad]
    have h1 := mul_le_mul_of_nonneg_right hc_le (le_of_lt hpi)
    linarith
  have hangle_nonneg : 0 ≤ degToRad (min polar 75) := by
    rw [degToRad]
    positivity
  have h75_lt_half_pi : degToRad 75 < Real.pi / 2 := by
    rw [degToRad]
    nlinarith
  have h75_le_pi : degToRad 75 ≤ Real.pi := by
    rw [degToRad]
    nlinarith
  have hcos_ge : Real.cos (degToRad (min polar 75)) ≥ Real.cos (degToRad 75) :=
    Real.cos_le_cos_of_nonneg_of_le_pi hangle_nonneg h75_le_pi hangle_le
  have hcos75_pos : 0 < Real.cos (degToRad 75) := by
    apply Real.cos_pos_of_mem_Ioo
    constructor
    · linarith [hangle_nonneg, hpi]
    · exact h75_lt_half_pi
  refine ⟨?_, ?_, ?_⟩
  · rw [hzval]; linarith
  · rw [hzval]; linarith
  · rw [hzval]; intro hzero; nlinarith

/-- C10 witness: the theorem applied to the straight-down unit direction
`(0, 0, 1)`. -/
theorem shadowDirectionFromProperties_z_bounded_away_from_zero_witness :
    ((0 : ℝ) * 0 + 0 * 0 + 1 * 1 = 1) ∧
      ((shadowDirectionFromProperties ⟨0, 0, 1⟩).z ≥ Real.cos (degToRad 75) ∧
        (shadowDirectionFromProperties ⟨0, 0, 1⟩).z > 0 ∧
        (shadowDirectionFromProperties ⟨0, 0, 1⟩).z ≠ 0) :=
  ⟨by norm_num,
    shadowDirectionFromProperties_z_bounded_away_from_zero ⟨0, 0, 1⟩ (by norm_num)⟩

/-! ## Instanced elevation updater and instanced draw (`src/unnamed/part_000`,
lines 306–337 and 372–423) -/

/-- A canonical tile id, compared by `===` in the source (object identity; two
identical canonical ids are the same object, modelled by value equality). -/
structure CanonicalTileID where
  z : ℕ
  x : ℕ
  y : ℕ
deriving DecidableEq, Repr

/-- The per-model instance data of a bucket: the packed
`instancedDataArray` (a stride in bytes, a number of elements, and the
`float32` view with 16 lanes per element) and the per-instance static
elevation baselines `instancesEvaluatedElevation`. -/
structure PerModelInstances where
  bytesPerElement : ℕ
  length : ℕ
  float32 : List ℚ
  instancesEvaluatedElevation : List ℚ
deriving DecidableEq, Repr

/-- The slice of `ModelBucket` that `updateModelBucketsElevation` touches. -/
structure ModelBucket where
  instancesPerModel : List PerModelInstances
  validForExaggeration : ℚ
  validForDEMTile : Option CanonicalTileID
deriving DecidableEq, Repr

/-- A found DEM tile with its sampler (`DEMSampler.create(terrain, tileID,
demTile)` and `dem.getElevationAt(x, y, true)`); `none` in the places below
models a missing `demTile` or a `demTile` without `dem` data. -/
structure DEMSamplerM where
  canonical : CanonicalTileID
  getElevationAt : ℤ → ℤ → ℚ

/-- The terrain collaborator: the exaggeration scalar and
`findDEMTileFor(tileId)` (already composed with the `demTile.dem` check and
`DEMSampler.create`). -/
structure Terrain where
  exaggeration : ℚ
  findDEMTileFor : CanonicalTileID → Option DEMSamplerM

/-- The slice of the painter the elevation updater reads. -/
structure PainterTerrain where
  terrain : Option Terrain

/-- JavaScript `v | 0` on the quantized instance coordinates: 32-bit signed
truncation.  The source stores small non-negative tile-local coordinates, but
the operator itself truncates toward zero and wraps modulo `2^32`. -/
def int32OfRat (q : ℚ) : ℤ :=
  (q.num / (q.den : ℤ) + 2 ^ 31) % 2 ^ 32 - 2 ^ 31

/-- The `(dem, exaggeration)` pair computed at the top of
`updateModelBucketsElevation` (lines 307–317): exaggeration is `0` without
terrain; with terrain and positive exaggeration the DEM tile is looked up and,
when it is missing, exaggeration is forced to `0` (fail-soft). -/
def demAndExaggeration (painter : PainterTerrain) (bucketTileID : CanonicalTileID) :
    Option DEMSamplerM × ℚ :=
  match painter.terrain with
  | none => (none, 0)
  | some terrain =>
    if terrain.exaggeration > 0 then
      match terrain.findDEMTileFor bucketTileID with
      | some dem => (some dem, terrain.exaggeration)
      | none => (none, 0)
    else
      (none, terrain.exaggeration)

/-- The memoized validity check of `updateModelBucketsElevation`
(lines 318–321): skip when the exaggeration is unchanged and (unless it is
zero) the backing DEM tile identity is unchanged. -/
def elevationUpdateSkipped (painter : PainterTerrain) (bucket : ModelBucket)
    (bucketTileID : CanonicalTileID) : Bool :=
  let dem := (demAndExaggeration painter bucketTileID).1
  let exaggeration := (demAndExaggeration painter bucketTileID).2
  exaggeration == bucket.validForExaggeration &&
    (exaggeration == 0 ||
      (match dem with
       | some d => bucket.validForDEMTile == some d.canonical
       | none => false))

/-- The per-element write of the elevation lane (lines 326–331): read the
quantized `x`/`y` from lanes `16*i` and `16*i + 1`, sample the DEM (scaled by
the exaggeration) or use `0`, add the static baseline, and write lane
`16*i + 6`.  Returns the updated array and the number of `getElevationAt`
calls performed. -/
def writeElevationLanes (dem : Option DEMSamplerM) (exaggeration : ℚ)
    (baselines : List ℚ) (n : ℕ) (arr : List ℚ) : List ℚ × ℕ :=
  (List.range n).foldl
    (fun acc i =>
      let x := int32OfRat (acc.1.getD (i * 16) 0)
      let y := int32OfRat (acc.1.getD (i * 16 + 1) 0)
      match dem with
      | some d =>
        (acc.1.set (i * 16 + 6) (exaggeration * d.getElevationAt x y + baselines.getD i 0),
          acc.2 + 1)
      | none =>
        (acc.1.set (i * 16 + 6) (0 + baselines.getD i 0), acc.2))
    (arr, 0)

/-- One iteration of the `for (const modelId in bucket.instancesPerModel)`
loop (lines 323–332): the stride assertion
`assert(instances.instancedDataArray.bytesPerElement === 64)` runs BEFORE any
element of this buffer is read or written; on failure nothing of this buffer
is touched. -/
def updateInstancesElevation (dem : Option DEMSamplerM) (exaggeration : ℚ)
    (inst : PerModelInstances) : Except Unit (PerModelInstances × ℕ) :=
  if inst.bytesPerElement ≠ 64 then .error () else
  let result := writeElevationLanes dem exaggeration
    inst.instancesEvaluatedElevation inst.length inst.float32
  .ok ({ inst with float32 := result.1 }, result.2)

/-- The whole per-bucket loop over `instancesPerModel`, sequencing the
per-model updates and summing the `getElevationAt` call counts. -/
def updateAllInstances (dem : Option DEMSamplerM) (exaggeration : ℚ) :
    List PerModelInstances → Except Unit (List PerModelInstances × ℕ)
  | [] => .ok ([], 0)
  | inst :: rest =>
    match updateInstancesElevation dem exaggeration inst with
    | .error e => .error e
    | .ok (inst2, c1) =>
      match updateAllInstances dem exaggeration rest with
      | .error e => .error e
      | .ok (rest2, c2) => .ok (inst2 :: rest2, c1 + c2)

/-- The result of one `updateModelBucketsElevation` call: the bucket after the
call, the number of `getElevationAt` calls performed, and whether the bucket
was marked dirty for re-upload (`bucket.uploaded = false; bucket.upload(...)`,
lines 335–336). -/
structure ElevationUpdateResult where
  bucket : ModelBucket
  elevationCalls : ℕ
  markedForUpload : Bool
deriving DecidableEq, Repr

/-- `updateModelBucketsElevation` (`src/unnamed/part_000`, lines 306–337):
compute `(dem, exaggeration)` with the fail-soft missing-DEM rule; return
unchanged (no sampling, no re-upload) when the memoized validity check passes;
otherwise rewrite the elevation lane of every instance of every model, update
the `validFor*` memo fields, and mark the bucket for re-upload. -/
def updateModelBucketsElevation (painter : PainterTerrain) (bucket : ModelBucket)
    (bucketTileID : CanonicalTileID) : Except Unit ElevationUpdateResult :=
  let dem := (demAndExaggeration painter bucketTileID).1
  let exaggeration := (demAndExaggeration painter bucketTileID).2
  if elevationUpdateSkipped painter bucket bucketTileID then
    .ok ⟨bucket, 0, false⟩
  else
    match updateAllInstances dem exaggeration bucket.instancesPerModel with
    | .error e => .error e
    | .ok (insts, calls) =>
      .ok ⟨{ instancesPerModel := insts,
             validForExaggeration := exaggeration,
             validForDEMTile := (match dem with
               | some d => some d.canonical
               | none => none) },
           calls, true⟩

theorem demAndExaggeration_none_zero (painter : PainterTerrain) (t : CanonicalTileID)
    (hex : ∀ terr, painter.terrain = some terr → 0 ≤ terr.exaggeration)
    (h : (demAndExaggeration painter t).1 = none) :
    (demAndExaggeration painter t).2 = 0 := by
  cases hpt : painter.terrain with
  | none => simp [demAndExaggeration, hpt]
  | some terr =>
    by_cases he : terr.exaggeration > 0
    · cases hf : terr.findDEMTileFor t with
      | some d => simp [demAndExaggeration, hpt, he, hf] at h
      | none => simp [demAndExaggeration, hpt, he, hf]
    · have h0 : terr.exaggeration = 0 := le_antisymm (not_lt.mp he) (hex terr hpt)
      simp [demAndExaggeration, hpt, he, h0]

theorem update_of_skipped (painter : PainterTerrain) (bucket : ModelBucket)
    (t : CanonicalTileID) (h : elevationUpdateSkipped painter bucket t = true) :
    updateModelBucketsElevation painter bucket t = .ok ⟨bucket, 0, false⟩ := by
  rw [updateModelBucketsElevation, if_pos h]

theorem skipped_of_updated_bucket (painter : PainterTerrain) (t : CanonicalTileID)
    (hex : ∀ terr, painter.terrain = some terr → 0 ≤ terr.exaggeration)
    (insts : List PerModelInstances) :
    elevationUpdateSkipped painter
      ⟨insts, (demAndExaggeration painter t).2,
        (match (demAndExaggeration painter t).1 with
          | some d => some d.canonical
          | none => none)⟩ t = true := by
  rw [elevationUpdateSkipped]
  cases hd : (demAndExaggeration painter t).1 with
  | some d => simp [hd]
  | none =>
    have h0 := demAndExaggeration_none_zero painter t hex hd
    simp [hd, h0]

/-- C7: (i) a second call of the elevation updater on the bucket returned by a
successful call, with the same painter (hence unchanged exaggeration and DEM
tile identity), performs zero `getElevationAt` calls, returns the bucket
unchanged, and does not mark it for re-upload; (ii) when terrain is present
with positive exaggeration but no DEM tile is found for the bucket's tile id,
the whole update behaves exactly as if the exaggeration were `0` (fail-soft)
instead of failing.  The hypothesis `hex` records that terrain exaggeration is
never negative. -/
theorem updateModelBucketsElevation_memoized_and_failsoft (painter : PainterTerrain)
    (bucket : ModelBucket) (t : CanonicalTileID) (r : ElevationUpdateResult)
    (hex : ∀ terr, painter.terrain = some terr → 0 ≤ terr.exaggeration)
    (h : updateModelBucketsElevation painter bucket t = .ok r) :
    (updateModelBucketsElevation painter r.bucket t = .ok ⟨r.bucket, 0, false⟩) ∧
    (∀ terr, painter.terrain = some terr → terr.exaggeration > 0 →
      terr.findDEMTileFor t = none →
      updateModelBucketsElevation painter bucket t =
        updateModelBucketsElevation ⟨some ⟨0, terr.findDEMTileFor⟩⟩ bucket t) := by
  constructor
  · by_cases hs : elevationUpdateSkipped painter bucket t
    · rw [updateModelBucketsElevation] at h
      rw [if_pos hs] at h
      injection h with hr
      rw [← hr]
      exact update_of_skipped painter bucket t hs
    · rw [updateModelBucketsElevation] at h
      rw [if_neg hs] at h
      cases hu : updateAllInstances (demAndExaggeration painter t).1
          (demAndExaggeration painter t).2 bucket.instancesPerModel with
      | error e => rw [hu] at h; simp at h
      | ok p =>
        rw [hu] at h
        injection h with hr
        rw [← hr]
        exact update_of_skipped painter _ t (skipped_of_updated_bucket painter t hex p.1)
  · intro terr hpt hpos hnone
    have h1 : demAndExaggeration painter t = (none, 0) := by
      simp [demAndExaggeration, hpt, hpos, hnone]
    have h2 : demAndExaggeration ⟨some ⟨0, terr.findDEMTileFor⟩⟩ t = (none, 0) := by
      simp [demAndExaggeration]
    rw [updateModelBucketsElevation, updateModelBucketsElevation,
      elevationUpdateSkipped, elevationUpdateSkipped, h1, h2]

/-- Example painter: terrain with exaggeration `1` whose DEM lookup finds no
tile (exercising the fail-soft path). -/
def exampleDEMPainter : PainterTerrain := ⟨some ⟨1, fun _ => none⟩⟩

/-- Example per-model instance data: one instance, stride 64, baseline `5`,
stale elevation lane `99`. -/
def exampleInstances : PerModelInstances :=
  ⟨64, 1, [1, 2, 0, 0, 0, 0, 99, 0, 0, 0, 0, 0, 0, 0, 0, 0], [5]⟩

/-- Example bucket whose memo fields are stale
(`validForExaggeration = 1` while the effective exaggeration is `0`). -/
def exampleStaleBucket : ModelBucket := ⟨[exampleInstances], 1, none⟩

/-- Example tile id. -/
def exampleTileID : CanonicalTileID := ⟨0, 0, 0⟩

/-- The bucket after the first (non-memoized) update: the elevation lane is
rewritten to `0 + 5` and the memo fields now record exaggeration `0`. -/
def exampleUpdatedBucket : ModelBucket :=
  ⟨[⟨64, 1, [1, 2, 0, 0, 0, 0, 5, 0, 0, 0, 0, 0, 0, 0, 0, 0], [5]⟩], 0, none⟩

/-- C7 witness: the theorem applied to the concrete first call (which samples
nothing because the DEM tile is missing, writes the lane, and marks for
upload); the second call is the memoized no-op. -/
theorem updateModelBucketsElevation_memoized_and_failsoft_witness :
    (updateModelBucketsElevation exampleDEMPainter exampleStaleBucket exampleTileID =
      .ok ⟨exampleUpdatedBucket, 0, true⟩) ∧
    (updateModelBucketsElevation exampleDEMPainter exampleUpdatedBucket exampleTileID =
      .ok ⟨exampleUpdatedBucket, 0, false⟩) := by
  have hfirst : updateModelBucketsElevation exampleDEMPainter exampleStaleBucket exampleTileID =
      .ok ⟨exampleUpdatedBucket, 0, true⟩ := by
    simp [updateModelBucketsElevation, elevationUpdateSkipped, demAndExaggeration,
      updateAllInstances, updateInstancesElevation, writeElevationLanes, int32OfRat,
      List.range_succ, exampleDEMPainter, exampleStaleBucket, exampleTileID,
      exampleInstances, exampleUpdatedBucket]
  refine ⟨hfirst, ?_⟩
  have h := updateModelBucketsElevation_memoized_and_failsoft exampleDEMPainter
    exampleStaleBucket exampleTileID ⟨exampleUpdatedBucket, 0, true⟩
    (by intro terr hterr; cases hterr; norm_num) hfirst
  exact h.1

/-- One instanced `program.draw` call of `drawInstancedNode` (lines 410–415):
the per-instance uniform source is the 16-float slice of the instance buffer
at byte offset `i * 64` (`new Float32Array(arrayBuffer, i * 64, 16)`). -/
structure InstancedDraw where
  instanceIndex : ℕ
  normalMatrixSlice : List ℚ
deriving DecidableEq, Repr

/-- The `for (const mesh of node.meshes)` loop of `drawInstancedNode`
(lines 376–416): for each mesh the stride assertion
`assert(modelInstances.instancedDataArray.bytesPerElement === 64)` (line 408)
runs BEFORE the per-instance loop reads any slice of the buffer; on failure
the error path is reached with no element read. -/
def drawInstancedMeshes (meshes : List Mesh) (modelInstances : PerModelInstances) :
    Except Unit (List InstancedDraw) :=
  match meshes with
  | [] => .ok []
  | _mesh :: rest =>
    if modelInstances.bytesPerElement ≠ 64 then .error () else
    match drawInstancedMeshes rest modelInstances with
    | .error e => .error e
    | .ok ds =>
      .ok ((List.range modelInstances.length).map
        (fun i => ⟨i, (modelInstances.float32.drop (i * 16)).take 16⟩) ++ ds)

mutual

/-- `drawInstancedNode` (`src/unnamed/part_000`, lines 372–423): draw the
node's meshes (per mesh: assert the stride, then one draw per instance), then
recurse into the children with the same instance data. -/
def drawInstancedNode (node : Node) (modelInstances : PerModelInstances) :
    Except Unit (List InstancedDraw) :=
  match node with
  | .mk _ nodeMeshes nodeChildren =>
    match drawInstancedMeshes nodeMeshes modelInstances with
    | .error e => .error e
    | .ok ds =>
      match drawInstancedNodeChildren nodeChildren modelInstances with
      | .error e => .error e
      | .ok ds2 => .ok (ds ++ ds2)

/-- The `for (const child of node.children)` loop of `drawInstancedNode`. -/
def drawInstancedNodeChildren (nodes : List Node) (modelInstances : PerModelInstances) :
    Except Unit (List InstancedDraw) :=
  match nodes with
  | [] => .ok []
  | c :: cs =>
    match drawInstancedNode c modelInstances with
    | .error e => .error e
    | .ok ds =>
      match drawInstancedNodeChildren cs modelInstances with
      | .error e => .error e
      | .ok ds2 => .ok (ds ++ ds2)

end

/-- Whether a node tree contains at least one mesh (so that the instanced draw
reaches a stride assertion at all). -/
def nodeTreeHasMesh (node : Node) : Bool :=
  (allNodes node).any (fun nd => !nd.meshes.isEmpty)

theorem updateAllInstances_error_of_bad_stride (dem : Option DEMSamplerM)
    (exaggeration : ℚ) (insts : List PerModelInstances) (inst : PerModelInstances)
    (hmem : inst ∈ insts) (hbad : inst.bytesPerElement ≠ 64) :
    updateAllInstances dem exaggeration insts = .error () := by
  induction insts with
  | nil => simp at hmem
  | cons a rest ih =>
    rw [updateAllInstances]
    by_cases ha : a.bytesPerElement ≠ 64
    · rw [updateInstancesElevation, if_pos ha]
    · rw [updateInstancesElevation, if_neg ha]
      simp only
      have hmem' : inst ∈ rest := by
        rcases List.mem_cons.mp hmem with heq | hm
        · exact absurd (heq ▸ hbad) (heq ▸ ha)
        · exact hm
      rw [ih hmem']

theorem drawInstancedMeshes_error_of_bad_stride (meshes : List Mesh)
    (modelInstances : PerModelInstances) (hbad : modelInstances.bytesPerElement ≠ 64)
    (hne : meshes ≠ []) :
    drawInstancedMeshes meshes modelInstances = .error () := by
  cases meshes with
  | nil => exact absurd rfl hne
  | cons m rest => rw [drawInstancedMeshes, if_pos hbad]

mutual

theorem drawInstancedNode_error_of_bad_stride (node : Node)
    (modelInstances : PerModelInstances) (hbad : modelInstances.bytesPerElement ≠ 64) :
    nodeTreeHasMesh node = true → drawInstancedNode node modelInstances = .error () := by
  cases node with
  | mk nm ms cs =>
    intro hhas
    rw [drawInstancedNode]
    cases hm : ms with
    | cons m rest =>
      rw [drawInstancedMeshes_error_of_bad_stride (m :: rest) modelInstances hbad
        (by simp)]
    | nil =>
      have hcs : (allNodesList cs).any (fun nd => !nd.meshes.isEmpty) = true := by
        rw [nodeTreeHasMesh, allNodes] at hhas
        subst hm
        simpa [Node.meshes] using hhas
      rw [drawInstancedMeshes]
      simp only
      rw [drawInstancedNodeChildren_error_of_bad_stride cs modelInstances hbad hcs]

theorem drawInstancedNodeChildren_error_of_bad_stride (nodes : List Node)
    (modelInstances : PerModelInstances) (hbad : modelInstances.bytesPerElement ≠ 64) :
    (allNodesList nodes).any (fun nd => !nd.meshes.isEmpty) = true →
      drawInstancedNodeChildren nodes modelInstances = .error () := by
  cases nodes with
  | nil => intro hhas; rw [allNodesList] at hhas; simp at hhas
  | cons c cs =>
    intro hhas
    rw [allNodesList, List.any_append] at hhas
    rw [drawInstancedNodeChildren]
    by_cases hc : (allNodes c).any (fun nd => !nd.meshes.isEmpty) = true
    · rw [drawInstancedNode_error_of_bad_stride c modelInstances hbad hc]
    · have hcs : (allNodesList cs).any (fun nd => !nd.meshes.isEmpty) = true := by
        rcases Bool.or_eq_true_iff.mp hhas with h | h
        · exact absurd h hc
        · exact h
      cases hd : drawInstancedNode c modelInstances with
      | error e => cases e; rfl
      | ok ds =>
        simp only
        rw [drawInstancedNodeChildren_error_of_bad_stride cs modelInstances hbad hcs]

end

/-- C9: both indexed-access sites into `instancedDataArray` are guarded by the
stride assertion `bytesPerElement === 64`, and a buffer with a different
stride reaches the assertion-failure path before any element is read or
written: (i) the elevation updater errors out whenever any per-model instance
buffer of the bucket has a stride other than 64 (unless the memoized early
return fires first, which touches no buffer at all); (ii) the instanced draw
over any node tree that contains a mesh errors out instead of issuing any
draw, whenever the instance buffer stride is not 64. -/
theorem instanced_stride_assertion_guards (painter : PainterTerrain)
    (bucket : ModelBucket) (t : CanonicalTileID) (inst : PerModelInstances)
    (node : Node) (modelInstances : PerModelInstances) :
    (elevationUpdateSkipped painter bucket t = false →
      inst ∈ bucket.instancesPerModel → inst.bytesPerElement ≠ 64 →
      updateModelBucketsElevation painter bucket t = .error ()) ∧
    (modelInstances.bytesPerElement ≠ 64 → nodeTreeHasMesh node = true →
      drawInstancedNode node modelInstances = .error ()) := by
  constructor
  · intro hskip hmem hbad
    rw [updateModelBucketsElevation]
    rw [if_neg (by rw [hskip]; simp)]
    rw [updateAllInstances_error_of_bad_stride _ _ _ inst hmem hbad]
  · intro hbad hhas
    exact drawInstancedNode_error_of_bad_stride node modelInstances hbad hhas

/-- Example instance data with an invalid stride of 32 bytes. -/
def exampleBadStrideInstances : PerModelInstances :=
  ⟨32, 1, [1, 2, 0, 0, 0, 0, 99, 0, 0, 0, 0, 0, 0, 0, 0, 0], [5]⟩

/-- Example bucket holding the bad-stride instance data, with memo fields that
do not match the current terrain state. -/
def exampleBadStrideBucket : ModelBucket := ⟨[exampleBadStrideInstances], 1, none⟩

/-- C9 witness: the theorem applied to the concrete bad-stride bucket (whose
memo check does not fire) and to a node with one mesh. -/
theorem instanced_stride_assertion_guards_witness :
    (elevationUpdateSkipped exampleDEMPainter exampleBadStrideBucket exampleTileID = false ∧
      exampleBadStrideInstances ∈ exampleBadStrideBucket.instancesPerModel ∧
      exampleBadStrideInstances.bytesPerElement ≠ 64 ∧
      nodeTreeHasMesh exampleBlendNode = true) ∧
    (updateModelBucketsElevation exampleDEMPainter exampleBadStrideBucket exampleTileID
        = .error () ∧
      drawInstancedNode exampleBlendNode exampleBadStrideInstances = .error ()) := by
  have hskip : elevationUpdateSkipped exampleDEMPainter exampleBadStrideBucket exampleTileID
      = false := by
    simp [elevationUpdateSkipped, demAndExaggeration, exampleDEMPainter,
      exampleBadStrideBucket, exampleTileID]
  have hmem : exampleBadStrideInstances ∈ exampleBadStrideBucket.instancesPerModel := by
    simp [exampleBadStrideBucket]
  have hbad : exampleBadStrideInstances.bytesPerElement ≠ 64 := by
    simp [exampleBadStrideInstances]
  have hhas : nodeTreeHasMesh exampleBlendNode = true := by
    simp [nodeTreeHasMesh, allNodes, allNodesList, exampleBlendNode, Node.meshes]
  have h := instanced_stride_assertion_guards exampleDEMPainter exampleBadStrideBucket
    exampleTileID exampleBadStrideInstances exampleBlendNode exampleBadStrideInstances
  exact ⟨⟨hskip, hmem, hbad, hhas⟩, h.1 hskip hmem hbad, h.2 hbad hhas⟩

end MapboxGL
